import Mathlib

/-!
Verification of the static-frontend dispatcher (vite-express-handler.js) and
the HTTP entry point (server entry file) of the hybridreality repository.

The embedding is shallow: the filesystem, the MIME lookup table of the
mime-types package, and the request clock are parameters; the path
manipulation helpers model the Node path module (join, dirname, extname)
for the well-formed paths this server builds (no "." or ".." segments and
no repeated separators, which is all the code ever constructs).
-/

/-- JavaScript String.prototype.startsWith, computed on character lists. -/
def strStartsWith (s pre : String) : Bool :=
  pre.toList.isPrefixOf s.toList

/-- JavaScript String.prototype.endsWith, computed on character lists. -/
def strEndsWith (s suf : String) : Bool :=
  suf.toList.isSuffixOf s.toList

/-- Character count of a string. -/
def strLen (s : String) : Nat := s.toList.length

/-- JavaScript String.prototype.substring from index n to the end,
computed on character lists. -/
def strDrop (s : String) (n : Nat) : String :=
  String.mk (s.toList.drop n)

/-- Strip leading slash characters, used by the Node path.join model. -/
def stripLeadingSlashes (s : String) : String :=
  String.mk (s.toList.dropWhile (fun c => c == '/'))

/-- Strip trailing slash characters, used by the Node path.join and
path.dirname models. -/
def stripTrailingSlashes (s : String) : String :=
  String.mk ((s.toList.reverse.dropWhile (fun c => c == '/')).reverse)

/-- Model of Node path.join on two segments, for segments free of "." and
".." components: concatenation with exactly one separator, keeping the
Node behaviour on empty and all-slash segments (join of "d" and "/" is
"d/", join of anything with "" returns the other argument). -/
def pathJoin (a b : String) : String :=
  if a = "" then b
  else if b = "" then a
  else
    let b2 := stripLeadingSlashes b
    if b2 = "" then stripTrailingSlashes a ++ "/"
    else stripTrailingSlashes a ++ "/" ++ b2

/-- Model of Node path.dirname: ignore trailing slashes, then cut at the
last slash; "." when there is no slash, "/" when the cut leaves only
slashes. -/
def pathDirname (p : String) : String :=
  let l := (p.toList.reverse.dropWhile (fun c => c == '/')).reverse
  let pre := (l.reverse.dropWhile (fun c => c != '/')).reverse
  if pre.isEmpty then "."
  else
    let pre2 := (pre.reverse.dropWhile (fun c => c == '/')).reverse
    if pre2.isEmpty then "/" else String.mk pre2

/-- Model of Node path.extname: the substring of the basename from its last
dot, empty when the basename has no dot or starts with its only dot; a
basename made only of dots (".", "..") has no extension. -/
def pathExtname (p : String) : String :=
  let b := (p.toList.reverse.takeWhile (fun c => c != '/')).reverse
  if b.all (fun c => c == '.') then ""
  else
    let revB := b.reverse
    let afterDot := revB.takeWhile (fun c => c != '.')
    if afterDot.length = revB.length then ""
    else if b.length - afterDot.length - 1 = 0 then ""
    else String.mk ('.' :: afterDot.reverse)

/-- Response bodies the two source files can produce: raw text from
res.send, file contents from res.sendFile, and the JSON shapes of the
catch-all API 404, the status endpoint, the API error handler and the
rate limiter message. -/
inductive Body where
  | text (s : String)
  | fileContents (s : String)
  | jsonError (error : String)
  | jsonStatus (status : String) (time : String)
  | jsonApiErr (success : Bool) (message : String) (statusCode : Nat)
      (stack : Option String) (timestamp : String)
  | jsonMsg (success : Bool) (message : String)
deriving DecidableEq, Repr

/-- An HTTP response: status code, Content-Type header when one is set,
and body. -/
structure Response where
  status : Nat
  contentType : Option String
  body : Body
deriving DecidableEq, Repr

/-- The ambient effects the dispatcher reads: fs.existsSync, the bytes
res.sendFile would stream, and the mime-types lookup table. -/
structure Env where
  fsExists : String → Bool
  fsRead : String → String
  mimeLookup : String → Option String

/-- The plain 404 response produced by res.status(404).send of the string
Not found. -/
def notFoundResp : Response := ⟨404, none, Body.text "Not found"⟩

/-- getMimeType from vite-express-handler.js: forced overrides for .js,
.mjs, .css, .html, .svg and .json checked by endsWith in source order,
then the mime-types lookup with application/octet-stream as default. -/
def getMimeType (lookup : String → Option String) (filePath : String) : String :=
  if strEndsWith filePath ".js" || strEndsWith filePath ".mjs" then "application/javascript"
  else if strEndsWith filePath ".css" then "text/css"
  else if strEndsWith filePath ".html" then "text/html"
  else if strEndsWith filePath ".svg" then "image/svg+xml"
  else if strEndsWith filePath ".json" then "application/json"
  else (lookup filePath).getD "application/octet-stream"

/-- serveFile from vite-express-handler.js: send the file with its
computed MIME type when it exists; otherwise, when fallbackToIndex was
requested, send index.html from the directory of the requested path as
text/html when that exists; otherwise a plain 404. -/
def serveFile (env : Env) (filePath : String) (fallbackToIndex : Bool) : Response :=
  if env.fsExists filePath then
    ⟨200, some (getMimeType env.mimeLookup filePath), Body.fileContents (env.fsRead filePath)⟩
  else if fallbackToIndex then
    let indexPath := pathJoin (pathDirname filePath) "index.html"
    if env.fsExists indexPath then
      ⟨200, some "text/html", Body.fileContents (env.fsRead indexPath)⟩
    else notFoundResp
  else notFoundResp

/-- The assets route handler registered by handleAssets for a dist
directory and URL prefix (the route pattern is the prefix followed by
/assets/ and a wildcard): it strips the prefix and /assets/ from the
request path, joins the remainder under the assets subdirectory of the
dist directory, and serves it with no index fallback. -/
def assetsRouteHandler (env : Env) (distPath urlPfx reqPath : String) : Response :=
  let assetPath := strDrop reqPath (strLen (urlPfx ++ "/assets/"))
  let fullAssetPath := pathJoin (pathJoin distPath "assets") assetPath
  serveFile env fullAssetPath false

/-- The general static route handler registered by handleAssets (pattern:
prefix followed by a wildcard). none models a call to next for /api/
paths; otherwise it strips the prefix, tries directory index.html when
the remainder ends in a slash or has no extension, and finally serves
the resolved file with SPA fallback. -/
def staticRouteHandler (env : Env) (distPath urlPfx reqPath : String) : Option Response :=
  if strStartsWith reqPath "/api/" then none
  else
    let rem := strDrop reqPath (strLen urlPfx)
    let filePath := if rem = "" then "/" else rem
    let fullPath := pathJoin distPath filePath
    if strEndsWith filePath "/" || pathExtname filePath == "" then
      let indexPath := pathJoin (pathJoin distPath filePath) "index.html"
      if env.fsExists indexPath then some (serveFile env indexPath false)
      else some (serveFile env fullPath true)
    else some (serveFile env fullPath true)

/-- The final catch-all route of setupViteFrontends: JSON 404 for /api/
paths, otherwise the admin index when the path starts with the admin
prefix and that index exists, otherwise the user index when it exists,
otherwise a plain 404. -/
def catchAllHandler (env : Env) (adminDistFull userDistFull adminPfx reqPath : String) :
    Response :=
  if strStartsWith reqPath "/api/" then
    ⟨404, some "application/json", Body.jsonError "API endpoint not found"⟩
  else if strStartsWith reqPath adminPfx
      && env.fsExists (pathJoin adminDistFull "index.html") then
    serveFile env (pathJoin adminDistFull "index.html") false
  else if env.fsExists (pathJoin userDistFull "index.html") then
    serveFile env (pathJoin userDistFull "index.html") false
  else notFoundResp

/-- Dispatch over the last three registered GET routes (the user frontend
at the empty prefix, then the catch-all), entered when none of the admin
routes matched. Express matching: the asset pattern matches paths that
begin with /assets/, the wildcard pattern matches every path, and next
inside a handler falls through to the later route. -/
def viteDispatchTail (env : Env) (userDist adminDist adminPfx p : String) : Response :=
  if strStartsWith p "/assets/" then assetsRouteHandler env userDist "" p
  else
    match staticRouteHandler env userDist "" p with
    | some r => r
    | none => catchAllHandler env adminDist userDist adminPfx p

/-- Full GET dispatch over the five routes setupViteFrontends registers,
in registration order: admin assets, admin static, user assets, user
static, catch-all. A pattern of prefix plus wildcard matches exactly the
paths beginning with the prefix followed by a slash. -/
def viteDispatch (env : Env) (userDist adminDist adminPfx p : String) : Response :=
  if strStartsWith p (adminPfx ++ "/assets/") then
    assetsRouteHandler env adminDist adminPfx p
  else if strStartsWith p (adminPfx ++ "/") then
    match staticRouteHandler env adminDist adminPfx p with
    | some r => r
    | none => viteDispatchTail env userDist adminDist adminPfx p
  else viteDispatchTail env userDist adminDist adminPfx p

/-- A JavaScript error object as the API error handler reads it: message
and status may be absent, stack is the trace string. -/
structure JsError where
  message : Option String
  status : Option Nat
  stack : String
deriving DecidableEq, Repr

/-- JavaScript a-or-else-b on a possibly absent string, where the empty
string is falsy. -/
def jsOrStr (o : Option String) (d : String) : String :=
  match o with
  | none => d
  | some s => if s = "" then d else s

/-- JavaScript a-or-else-b on a possibly absent number, where 0 is falsy. -/
def jsOrNat (o : Option Nat) (d : Nat) : Nat :=
  match o with
  | none => d
  | some n => if n = 0 then d else n

/-- The API error middleware of the entry file: status of the error or
500, JSON body with success false, the error message or a generic one,
the status code, a stack field only when NODE_ENV is the string
development, and a timestamp. env is NODE_ENV, now the serialized
current time. -/
def errorHandler (env now : String) (err : JsError) : Response :=
  let statusCode := jsOrNat err.status 500
  ⟨statusCode, some "application/json",
    Body.jsonApiErr false (jsOrStr err.message "Internal server error") statusCode
      (if env == "development" then some err.stack else none) now⟩

/-- A calendar timestamp with millisecond precision, the data rendered by
the JavaScript Date toISOString method. -/
structure DateTime where
  year : Nat
  month : Nat
  day : Nat
  hour : Nat
  minute : Nat
  second : Nat
  millis : Nat
deriving DecidableEq, Repr

/-- Left-pad a number to two digits. -/
def pad2 (n : Nat) : String := if n < 10 then "0" ++ toString n else toString n

/-- Left-pad a number to three digits. -/
def pad3 (n : Nat) : String :=
  if n < 10 then "00" ++ toString n
  else if n < 100 then "0" ++ toString n
  else toString n

/-- Left-pad a number to four digits. -/
def pad4 (n : Nat) : String :=
  if n < 10 then "000" ++ toString n
  else if n < 100 then "00" ++ toString n
  else if n < 1000 then "0" ++ toString n
  else toString n

/-- Modelled from the spec: the JavaScript Date toISOString method (a
runtime builtin, not part of this repository), which renders a date as
an ISO-8601 string of the shape YYYY-MM-DDTHH:MM:SS.mmmZ. -/
def toISOString (t : DateTime) : String :=
  pad4 t.year ++ "-" ++ pad2 t.month ++ "-" ++ pad2 t.day ++ "T" ++
    pad2 t.hour ++ ":" ++ pad2 t.minute ++ ":" ++ pad2 t.second ++ "." ++
    pad3 t.millis ++ "Z"

/-- Bounds under which a DateTime is a calendar date, the range the
runtime clock produces. -/
def validDateTime (t : DateTime) : Prop :=
  t.year < 10000 ∧ 1 ≤ t.month ∧ t.month ≤ 12 ∧ 1 ≤ t.day ∧ t.day ≤ 31 ∧
    t.hour < 24 ∧ t.minute < 60 ∧ t.second < 60 ∧ t.millis < 1000

instance (t : DateTime) : Decidable (validDateTime t) := by
  unfold validDateTime; infer_instance

/-- A string is an ISO-8601 timestamp when it is the rendering of some
calendar date. -/
def isISO8601 (s : String) : Prop :=
  ∃ t : DateTime, validDateTime t ∧ s = toISOString t

/-- The GET /api/status route of the entry file, at current time t:
status 200 with JSON body of status OK and the ISO time. -/
def statusRoute (t : DateTime) : Response :=
  ⟨200, some "application/json", Body.jsonStatus "OK" (toISOString t)⟩

/-- The rate limiter configuration object built in the entry file. -/
structure RateLimitConfig where
  windowMs : Nat
  max : Nat
  standardHeaders : Bool
  legacyHeaders : Bool
  message : Body
deriving DecidableEq, Repr

/-- limiter from the entry file: 15 minute window, 500 requests, standard
headers on, legacy headers off, JSON refusal message. -/
def limiter : RateLimitConfig :=
  { windowMs := 15 * 60 * 1000
    max := 500
    standardHeaders := true
    legacyHeaders := false
    message := Body.jsonMsg false "Too many requests, please try again later." }

/-- Modelled from the spec: the express-rate-limit middleware (library
code, not part of this repository) counts requests per client within the
window and answers with the configured message once the count exceeds
max; count is the number of requests so far in the current window,
including this one. none means the request passes through. -/
def rateLimitCheck (cfg : RateLimitConfig) (count : Nat) : Option Body :=
  if count > cfg.max then some cfg.message else none

/-- The limiter as mounted in the entry file on the /api mount point; per
the spec the limiter applies to the paths starting with /api. -/
def apiRateLimit (path : String) (count : Nat) : Option Body :=
  if strStartsWith path "/api" then rateLimitCheck limiter count else none

/-- The body size limit the entry file passes to express.json and
express.urlencoded, the string 50mb, which the bytes library reads as
50 mebibytes. -/
def jsonBodyLimit : Nat := 50 * 1024 * 1024

/-- Modelled from the spec: the body size enforcement of express.json
(library code, not part of this repository): a body above the configured
limit is refused with HTTP 413. -/
def parseBody (limit size : Nat) : Except Nat Unit :=
  if size > limit then Except.error 413 else Except.ok ()

/-- An /api request as assembled in the entry file: body parsing with the
50mb limit runs as middleware before any route logic; when parsing
fails the route is never invoked. -/
def apiPipeline (size : Nat) (route : Unit → Response) : Response :=
  match parseBody jsonBodyLimit size with
  | Except.error c => ⟨c, none, Body.text "Payload Too Large"⟩
  | Except.ok _ => route ()

/-- Observable process-level actions of the entry file handlers. -/
inductive ProcAction where
  | log (msg : String)
  | closeServer
  | exitProc (code : Nat)
deriving DecidableEq, Repr

/-- The unhandledRejection listener of the entry file: log a shutdown
notice, log the error, exit with code 1; no server drain of any kind. -/
def unhandledRejectionHandler (err : String) : List ProcAction :=
  [ProcAction.log "UNHANDLED REJECTION! Shutting down...",
   ProcAction.log err,
   ProcAction.exitProc 1]

/-- The user dist directory of the C1 scenario. -/
def c1User : String := "/app/user_dist"

/-- The admin dist directory of the C1 scenario (not present on disk). -/
def c1Admin : String := "/app/admin_dist"

/-- The contents of the only file on disk in the C1 scenario. -/
def c1IndexBody : String := "<html>hybrid</html>"

/-- The C1 scenario environment: the user root directory holds only
index.html, there is no assets subdirectory and no admin build. -/
def c1Env : Env :=
  { fsExists := fun p => p == "/app/user_dist/index.html"
    fsRead := fun p => if p == "/app/user_dist/index.html" then c1IndexBody else ""
    mimeLookup := fun _ => none }

example : pathJoin "/app/user_dist" "/" = "/app/user_dist/" := by decide
example : pathJoin "/app/user_dist/" "index.html" = "/app/user_dist/index.html" := by decide
example : pathDirname "/app/user_dist/nonexistent/path" = "/app/user_dist/nonexistent" := by decide
example : pathExtname "/nonexistent/path" = "" := by decide
example : pathExtname "app.js" = ".js" := by decide
example : pathExtname ".bashrc" = "" := by decide

/-- Two strings that are not suffixes of one another cannot both be
suffixes of the same string; used to separate the extension override
branches of getMimeType. -/
lemma strEndsWith_excl (p a b : String) (ha : strEndsWith p a = true)
    (hab : ¬ a.toList <:+ b.toList) (hba : ¬ b.toList <:+ a.toList) :
    strEndsWith p b = false := by
  cases hb : strEndsWith p b with
  | false => rfl
  | true =>
    have ha2 : a.toList <:+ p.toList := by
      have h := ha
      rwa [strEndsWith, List.isSuffixOf_iff_suffix] at h
    have hb2 : b.toList <:+ p.toList := by
      rwa [strEndsWith, List.isSuffixOf_iff_suffix] at hb
    rcases List.suffix_or_suffix_of_suffix ha2 hb2 with h | h
    · exact absurd h hab
    · exact absurd h hba

/-- C1: the concrete scenario of the claim fails at the multi-segment
path: with only index.html in the user root, GET /nonexistent/path is a
plain 404 (the SPA fallback looks for index.html next to the resolved
path, in userRootDir/nonexistent), not a 200 with the index body. -/
theorem c1_counterexample :
    viteDispatch c1Env c1User c1Admin "/admin" "/nonexistent/path" = notFoundResp ∧
    (viteDispatch c1Env c1User c1Admin "/admin" "/nonexistent/path").status ≠ 200 ∧
    (viteDispatch c1Env c1User c1Admin "/admin" "/nonexistent/path").body ≠
      Body.fileContents c1IndexBody := by decide

/-- C1 (amended): with a user root directory containing only index.html,
GET / returns 200 text/html with the index body; GET /nonexistent (a
single-segment path with no extension) returns the same via SPA
fallback; GET /nonexistent/path (multi-segment) returns a plain-text 404
because the fallback index is sought in userRootDir/nonexistent; and
GET /assets/app.js returns a plain-text 404. -/
theorem c1_amended_scenario :
    viteDispatch c1Env c1User c1Admin "/admin" "/" =
      ⟨200, some "text/html", Body.fileContents c1IndexBody⟩ ∧
    viteDispatch c1Env c1User c1Admin "/admin" "/nonexistent" =
      ⟨200, some "text/html", Body.fileContents c1IndexBody⟩ ∧
    viteDispatch c1Env c1User c1Admin "/admin" "/nonexistent/path" = notFoundResp ∧
    viteDispatch c1Env c1User c1Admin "/admin" "/assets/app.js" = notFoundResp := by decide

/-- C2: in serveFile, for every requested path missing on disk: with SPA
fallback requested the response is index.html from the directory of the
originally resolved path served as text/html when that index exists, and
a plain 404 with body Not found when the index is also missing or when
fallback was not requested. -/
theorem c2_serveFile_missing (env : Env) (filePath : String) (fb : Bool)
    (h : env.fsExists filePath = false) :
    serveFile env filePath fb =
      (if fb then
        (if env.fsExists (pathJoin (pathDirname filePath) "index.html") then
          ⟨200, some "text/html",
            Body.fileContents (env.fsRead (pathJoin (pathDirname filePath) "index.html"))⟩
        else notFoundResp)
      else notFoundResp) := by
  cases fb <;> simp [serveFile, h]

/-- The environment of the C2 witness: only /d/index.html exists. -/
def c2Env : Env :=
  { fsExists := fun p => p == "/d/index.html"
    fsRead := fun p => if p == "/d/index.html" then "IDX" else ""
    mimeLookup := fun _ => none }

/-- C2 witness: a missing /d/app.png with fallback serves /d/index.html,
and without fallback yields the plain 404. -/
theorem c2_witness :
    serveFile c2Env "/d/app.png" true =
      ⟨200, some "text/html", Body.fileContents "IDX"⟩ ∧
    serveFile c2Env "/d/app.png" false = notFoundResp :=
  ⟨(c2_serveFile_missing c2Env "/d/app.png" true (by decide)).trans (by decide),
   (c2_serveFile_missing c2Env "/d/app.png" false (by decide)).trans (by decide)⟩

/-- C3: the final catch-all route sends the JSON 404 for /api/ paths,
the admin index for paths under the admin prefix when that index exists,
the user index otherwise when it exists, and a plain 404 when neither
index exists. -/
theorem c3_catchAll_spec (env : Env) (aDist uDist aPfx p : String) :
    (strStartsWith p "/api/" = true →
      catchAllHandler env aDist uDist aPfx p =
        ⟨404, some "application/json", Body.jsonError "API endpoint not found"⟩) ∧
    (strStartsWith p "/api/" = false → strStartsWith p aPfx = true →
      env.fsExists (pathJoin aDist "index.html") = true →
      (catchAllHandler env aDist uDist aPfx p).status = 200 ∧
      (catchAllHandler env aDist uDist aPfx p).body =
        Body.fileContents (env.fsRead (pathJoin aDist "index.html"))) ∧
    (strStartsWith p "/api/" = false →
      (strStartsWith p aPfx = false ∨ env.fsExists (pathJoin aDist "index.html") = false) →
      env.fsExists (pathJoin uDist "index.html") = true →
      (catchAllHandler env aDist uDist aPfx p).status = 200 ∧
      (catchAllHandler env aDist uDist aPfx p).body =
        Body.fileContents (env.fsRead (pathJoin uDist "index.html"))) ∧
    (strStartsWith p "/api/" = false →
      (strStartsWith p aPfx = false ∨ env.fsExists (pathJoin aDist "index.html") = false) →
      env.fsExists (pathJoin uDist "index.html") = false →
      catchAllHandler env aDist uDist aPfx p = notFoundResp) := by
  refine ⟨fun h1 => by simp [catchAllHandler, h1],
    fun h1 h2 h3 => ?_, fun h1 h2 h3 => ?_, fun h1 h2 h3 => ?_⟩
  · simp [catchAllHandler, h1, h2, h3, serveFile]
  · rcases h2 with h2 | h2 <;> simp [catchAllHandler, h1, h2, h3, serveFile]
  · rcases h2 with h2 | h2 <;> simp [catchAllHandler, h1, h2, h3]

/-- The environment of the C3 witness: both frontends are built. -/
def c3Env : Env :=
  { fsExists := fun p => p == "/s/a/index.html" || p == "/s/u/index.html"
    fsRead := fun p =>
      if p == "/s/a/index.html" then "ADMIN"
      else if p == "/s/u/index.html" then "USER" else ""
    mimeLookup := fun _ => none }

/-- C3 witness: the catch-all at concrete paths of its three live
branches. -/
theorem c3_witness :
    catchAllHandler c3Env "/s/a" "/s/u" "/admin" "/api/missing" =
      ⟨404, some "application/json", Body.jsonError "API endpoint not found"⟩ ∧
    (catchAllHandler c3Env "/s/a" "/s/u" "/admin" "/admin/deep/route").body =
      Body.fileContents "ADMIN" ∧
    (catchAllHandler c3Env "/s/a" "/s/u" "/admin" "/somewhere").body =
      Body.fileContents "USER" :=
  ⟨(c3_catchAll_spec c3Env "/s/a" "/s/u" "/admin" "/api/missing").1 (by decide),
   ((c3_catchAll_spec c3Env "/s/a" "/s/u" "/admin" "/admin/deep/route").2.1
      (by decide) (by decide) (by decide)).2.trans (by decide),
   ((c3_catchAll_spec c3Env "/s/a" "/s/u" "/admin" "/somewhere").2.2.1
      (by decide) (Or.inl (by decide)) (by decide)).2.trans (by decide)⟩

/-- C4: getMimeType maps the five override extensions to their fixed
types and resolves every other path through the generic lookup with
application/octet-stream as default, for every lookup table. -/
theorem c4_getMimeType_spec (lookup : String → Option String) (p : String) :
    (strEndsWith p ".js" = true ∨ strEndsWith p ".mjs" = true →
      getMimeType lookup p = "application/javascript") ∧
    (strEndsWith p ".css" = true → getMimeType lookup p = "text/css") ∧
    (strEndsWith p ".html" = true → getMimeType lookup p = "text/html") ∧
    (strEndsWith p ".svg" = true → getMimeType lookup p = "image/svg+xml") ∧
    (strEndsWith p ".json" = true → getMimeType lookup p = "application/json") ∧
    (strEndsWith p ".js" = false → strEndsWith p ".mjs" = false →
      strEndsWith p ".css" = false → strEndsWith p ".html" = false →
      strEndsWith p ".svg" = false → strEndsWith p ".json" = false →
      getMimeType lookup p = (lookup p).getD "application/octet-stream") := by
  refine ⟨fun h => ?_, fun h => ?_, fun h => ?_, fun h => ?_, fun h => ?_,
    fun h1 h2 h3 h4 h5 h6 => by simp [getMimeType, h1, h2, h3, h4, h5, h6]⟩
  · rcases h with h | h <;> simp [getMimeType, h]
  · have h1 := strEndsWith_excl p ".css" ".js" h (by decide) (by decide)
    have h2 := strEndsWith_excl p ".css" ".mjs" h (by decide) (by decide)
    simp [getMimeType, h, h1, h2]
  · have h1 := strEndsWith_excl p ".html" ".js" h (by decide) (by decide)
    have h2 := strEndsWith_excl p ".html" ".mjs" h (by decide) (by decide)
    have h3 := strEndsWith_excl p ".html" ".css" h (by decide) (by decide)
    simp [getMimeType, h, h1, h2, h3]
  · have h1 := strEndsWith_excl p ".svg" ".js" h (by decide) (by decide)
    have h2 := strEndsWith_excl p ".svg" ".mjs" h (by decide) (by decide)
    have h3 := strEndsWith_excl p ".svg" ".css" h (by decide) (by decide)
    have h4 := strEndsWith_excl p ".svg" ".html" h (by decide) (by decide)
    simp [getMimeType, h, h1, h2, h3, h4]
  · have h1 := strEndsWith_excl p ".json" ".js" h (by decide) (by decide)
    have h2 := strEndsWith_excl p ".json" ".mjs" h (by decide) (by decide)
    have h3 := strEndsWith_excl p ".json" ".css" h (by decide) (by decide)
    have h4 := strEndsWith_excl p ".json" ".html" h (by decide) (by decide)
    have h5 := strEndsWith_excl p ".json" ".svg" h (by decide) (by decide)
    simp [getMimeType, h, h1, h2, h3, h4, h5]

/-- A lookup table for the C4 witness that disagrees with every override,
showing the overrides win regardless of the generic table. -/
def c4Lookup : String → Option String := fun p =>
  if strEndsWith p ".png" then some "image/png" else some "text/plain"

/-- C4 witness: each override at a concrete path, and the generic lookup
with its default. -/
theorem c4_witness :
    getMimeType c4Lookup "/a/app.js" = "application/javascript" ∧
    getMimeType c4Lookup "/a/app.mjs" = "application/javascript" ∧
    getMimeType c4Lookup "/a/app.css" = "text/css" ∧
    getMimeType c4Lookup "/a/index.html" = "text/html" ∧
    getMimeType c4Lookup "/a/logo.svg" = "image/svg+xml" ∧
    getMimeType c4Lookup "/a/data.json" = "application/json" ∧
    getMimeType c4Lookup "/a/pic.png" = "image/png" ∧
    getMimeType (fun _ => none) "/a/file.bin" = "application/octet-stream" :=
  ⟨(c4_getMimeType_spec c4Lookup "/a/app.js").1 (Or.inl (by decide)),
   (c4_getMimeType_spec c4Lookup "/a/app.mjs").1 (Or.inr (by decide)),
   (c4_getMimeType_spec c4Lookup "/a/app.css").2.1 (by decide),
   (c4_getMimeType_spec c4Lookup "/a/index.html").2.2.1 (by decide),
   (c4_getMimeType_spec c4Lookup "/a/logo.svg").2.2.2.1 (by decide),
   (c4_getMimeType_spec c4Lookup "/a/data.json").2.2.2.2.1 (by decide),
   ((c4_getMimeType_spec c4Lookup "/a/pic.png").2.2.2.2.2 (by decide) (by decide)
      (by decide) (by decide) (by decide) (by decide)).trans (by decide),
   ((c4_getMimeType_spec (fun _ => none) "/a/file.bin").2.2.2.2.2 (by decide) (by decide)
      (by decide) (by decide) (by decide) (by decide)).trans (by decide)⟩

/-- C5 counterexample: with NODE_ENV equal to test — a mode that is not
production — the API error handler omits the stack field, so the stack
is not included exactly when the process is outside production mode. -/
theorem c5_counterexample :
    errorHandler "test" "2024-05-01T00:00:00.000Z"
        { message := some "boom", status := some 400, stack := "trace-here" } =
      ⟨400, some "application/json",
        Body.jsonApiErr false "boom" 400 none "2024-05-01T00:00:00.000Z"⟩ ∧
    "test" ≠ "production" := by decide

/-- C5 (amended): every error on an /api request is answered with JSON
carrying success false, the error message or Internal server error, the
error status or 500 (also used as the HTTP status), the timestamp, and a
stack field exactly when NODE_ENV is development. -/
theorem c5_errorHandler_spec (env now : String) (err : JsError) :
    ∃ st : Option String,
      errorHandler env now err =
        ⟨jsOrNat err.status 500, some "application/json",
          Body.jsonApiErr false (jsOrStr err.message "Internal server error")
            (jsOrNat err.status 500) st now⟩ ∧
      (st ≠ none ↔ env = "development") := by
  refine ⟨if env == "development" then some err.stack else none, rfl, ?_⟩
  by_cases h : env = "development" <;> simp [h]

/-- C6: GET /api/status answers 200 with JSON status OK and a time field
that is an ISO-8601 timestamp. -/
theorem c6_statusRoute_spec (t : DateTime) (h : validDateTime t) :
    (statusRoute t).status = 200 ∧
    (statusRoute t).body = Body.jsonStatus "OK" (toISOString t) ∧
    isISO8601 (toISOString t) :=
  ⟨rfl, rfl, t, h, rfl⟩

/-- A concrete clock reading for the C6 witness. -/
def c6Time : DateTime := ⟨2024, 5, 1, 12, 30, 45, 123⟩

/-- C6 witness: the status route at a concrete instant. -/
theorem c6_witness :
    (statusRoute c6Time).status = 200 ∧
    (statusRoute c6Time).body = Body.jsonStatus "OK" "2024-05-01T12:30:45.123Z" ∧
    isISO8601 "2024-05-01T12:30:45.123Z" := by
  have h := c6_statusRoute_spec c6Time (by decide)
  have e : toISOString c6Time = "2024-05-01T12:30:45.123Z" := by decide
  exact ⟨h.1, h.2.1.trans (by rw [e]), e ▸ h.2.2⟩

/-- C7: the rate limiter is configured with a 15-minute window, 500
requests maximum, standard headers on and legacy headers off; on /api
paths the request count above 500 within the window receives the JSON
refusal message, counts up to 500 pass, and paths outside /api are
never limited. -/
theorem c7_rateLimit_spec :
    limiter.windowMs = 15 * 60 * 1000 ∧
    limiter.max = 500 ∧
    limiter.standardHeaders = true ∧
    limiter.legacyHeaders = false ∧
    (∀ p n, strStartsWith p "/api" = true → 500 < n →
      apiRateLimit p n =
        some (Body.jsonMsg false "Too many requests, please try again later.")) ∧
    (∀ p n, strStartsWith p "/api" = true → n ≤ 500 → apiRateLimit p n = none) ∧
    (∀ p n, strStartsWith p "/api" = false → apiRateLimit p n = none) := by
  refine ⟨rfl, rfl, rfl, rfl, fun p n hp hn => ?_, fun p n hp hn => ?_, fun p n hp => ?_⟩
  · simp only [apiRateLimit, hp, if_true, rateLimitCheck, limiter]
    rw [if_pos hn]
  · simp only [apiRateLimit, hp, if_true, rateLimitCheck, limiter]
    rw [if_neg (by omega)]
  · simp [apiRateLimit, hp]

/-- C7 witness: the 501st request on an /api path within the window is
refused with the configured JSON message, the 500th passes, and a
non-API path passes at any count. -/
theorem c7_witness :
    apiRateLimit "/api/users" 501 =
      some (Body.jsonMsg false "Too many requests, please try again later.") ∧
    apiRateLimit "/api/users" 500 = none ∧
    apiRateLimit "/somepage" 9999 = none :=
  ⟨c7_rateLimit_spec.2.2.2.2.1 "/api/users" 501 (by decide) (by omega),
   c7_rateLimit_spec.2.2.2.2.2.1 "/api/users" 500 (by decide) (by omega),
   c7_rateLimit_spec.2.2.2.2.2.2 "/somepage" 9999 (by decide)⟩

/-- C8: a request body above the 50 MB ceiling is refused with a client
error (413) by the body-parsing middleware, and the route handler is
never consulted: the response is the same whatever the route would do. -/
theorem c8_bodyLimit_spec (size : Nat) (route : Unit → Response)
    (h : 50 * 1024 * 1024 < size) :
    apiPipeline size route = ⟨413, none, Body.text "Payload Too Large"⟩ ∧
    400 ≤ (apiPipeline size route).status ∧ (apiPipeline size route).status < 500 := by
  have hp : parseBody jsonBodyLimit size = Except.error 413 := by
    simp only [parseBody, jsonBodyLimit]
    rw [if_pos h]
  refine ⟨?_, ?_, ?_⟩ <;> simp [apiPipeline, hp]

/-- C8 witness: one byte above the ceiling is refused with 413 regardless
of the route behind the parser. -/
theorem c8_witness :
    apiPipeline (50 * 1024 * 1024 + 1) (fun _ => notFoundResp) =
      ⟨413, none, Body.text "Payload Too Large"⟩ :=
  (c8_bodyLimit_spec (50 * 1024 * 1024 + 1) (fun _ => notFoundResp) (by omega)).1

/-- C9: the unhandledRejection listener logs the error and ends with an
immediate process exit with code 1; none of its actions is a graceful
server drain. -/
theorem c9_unhandledRejection_spec (err : String) :
    ProcAction.log err ∈ unhandledRejectionHandler err ∧
    (unhandledRejectionHandler err).getLast? = some (ProcAction.exitProc 1) ∧
    ∀ a ∈ unhandledRejectionHandler err, a ≠ ProcAction.closeServer := by
  refine ⟨?_, rfl, ?_⟩
  · simp [unhandledRejectionHandler]
  · intro a ha
    simp only [unhandledRejectionHandler, List.mem_cons, List.not_mem_nil, or_false] at ha
    rcases ha with h | h | h <;> subst h <;> simp

/-- C9 witness: the listener at a concrete error. -/
theorem c9_witness :
    (unhandledRejectionHandler "boom").getLast? = some (ProcAction.exitProc 1) ∧
    ProcAction.log "boom" ≠ ProcAction.closeServer :=
  ⟨(c9_unhandledRejection_spec "boom").2.1,
   (c9_unhandledRejection_spec "boom").2.2 (ProcAction.log "boom")
      (c9_unhandledRejection_spec "boom").1⟩

/-- C10: an assets route never falls back to the SPA index: whenever the
resolved file under the assets directory does not exist the response is
the plain 404, for every environment, hence even when the index.html of
the app exists. -/
theorem c10_assets_no_fallback (env : Env) (distPath urlPfx reqPath : String)
    (h : env.fsExists (pathJoin (pathJoin distPath "assets")
        (strDrop reqPath (strLen (urlPfx ++ "/assets/")))) = false) :
    assetsRouteHandler env distPath urlPfx reqPath = notFoundResp := by
  simp [assetsRouteHandler, serveFile, h]

/-- The environment of the C10 witness: the user index exists but the
requested asset does not. -/
def c10Env : Env :=
  { fsExists := fun p => p == "/w/user_dist/index.html"
    fsRead := fun p => if p == "/w/user_dist/index.html" then "SPA" else ""
    mimeLookup := fun _ => none }

/-- C10 witness: a missing asset under the user app is a plain 404 even
though the index.html of that app exists. -/
theorem c10_witness :
    assetsRouteHandler c10Env "/w/user_dist" "" "/assets/app.js" = notFoundResp ∧
    c10Env.fsExists (pathJoin "/w/user_dist" "index.html") = true :=
  ⟨c10_assets_no_fallback c10Env "/w/user_dist" "" "/assets/app.js" (by decide),
   by decide⟩
